import Mathlib

set_option maxRecDepth 4000

/-!
Verification of the data-preparation, job-configuration, inference-handler,
cleanup and structural-comparison logic of the protein-ML notebooks
(ESMFold structure prediction, ESM-2 domain adaptation, and ESM-2
localization fine-tuning with PEFT).

The notebooks delegate the neural networks and the managed training service
to external libraries; the logic embedded here is the sequence
tokenization/padding, the label-matrix construction of `preprocess_data`,
the length filter and train/validation/test split, the inference request
and response handlers (`input_fn`, `output_fn`), the best-effort endpoint
cleanup, the hyperparameter/job-configuration assembly, and the TM-score
structural comparator wrapper.
-/

/-! ## Tokenization model -/

/-- Modelled from the spec: the HuggingFace ESM tokenizer called by
`preprocess_data` and `tokenize_data` is an external dependency whose
implementation is absent from the sources (the spec marks "the protein
language model and its tokenizer" out of scope).  Per the spec's data model,
sequences are strings over a 20-symbol amino-acid alphabet. -/
def aminoAcids : List Char :=
  ['A', 'C', 'D', 'E', 'F', 'G', 'H', 'I', 'K', 'L',
   'M', 'N', 'P', 'Q', 'R', 'S', 'T', 'V', 'W', 'Y']

/-- Modelled from the spec: the designated pad token id
("pad with a designated pad symbol"). -/
def padTokenId : Nat := 0

/-- Modelled from the spec: the fixed "unknown" token id ("unknown symbols
map to a fixed unknown token id rather than failing"). -/
def unkTokenId : Nat := 1

/-- Modelled from the spec: one token id per amino-acid symbol; symbols
outside the alphabet map to the fixed unknown id. -/
def tokenOfChar (c : Char) : Nat :=
  let i := aminoAcids.indexOf c
  if i < aminoAcids.length then i + 2 else unkTokenId

/-- Modelled from the spec: the tokenizer encoding used with
`padding="max_length", truncation=True, max_length=maxLength` — produce a
token array of exactly `maxLength` entries, truncating longer sequences and
padding shorter ones with the pad token. -/
def encodeTokens (maxLength : Nat) (s : List Char) : List Nat :=
  let ids := (s.take maxLength).map tokenOfChar
  ids ++ List.replicate (maxLength - ids.length) padTokenId

/-- Modelled from the spec: the attention/validity mask marking real vs
padded positions. -/
def attentionMask (maxLength : Nat) (s : List Char) : List Nat :=
  List.replicate (min s.length maxLength) 1 ++
    List.replicate (maxLength - min s.length maxLength) 0

/-- Number of trailing pad tokens of an encoded token array. -/
def trailingPadCount (ts : List Nat) : Nat :=
  (ts.reverse.takeWhile (fun t => t == padTokenId)).length

/-- Modelled from the spec: `tokenizer.decode` restricted to ignoring pad
(and other control) tokens, mapping residue token ids back to their
amino-acid symbols. -/
def decodeTokens (ts : List Nat) : List Char :=
  ts.filterMap (fun t => if t < 2 then none else aminoAcids.get? (t - 2))

/-- `tokenize_data` of the domain-adaptation notebook: tokenize each text of
the batch with `padding="max_length", truncation=True,
max_length=sequence_length`. -/
def tokenize_data (sequenceLength : Nat) (texts : List (List Char)) : List (List Nat) :=
  texts.map (encodeTokens sequenceLength)

/-! ## `preprocess_data` of the localization notebook -/

/-- A row of the DeepLoc data set: the amino-acid sequence plus the record's
numeric value for each named column (the localization flags used as labels). -/
structure LocRecord where
  sequence : List Char
  labelValue : String → ℚ

/-- Modelled from the spec: the ten localization label columns of the
DeepLoc CSV (the file itself is fetched at run time, so label names are not
in the sources; the spec fixes K = 10 localization labels in canonical
column order). -/
def deepLocLabels : List String :=
  ["Cytoplasm", "Nucleus", "Extracellular", "Cell membrane", "Mitochondrion",
   "Plastid", "Endoplasmic reticulum", "Lysosome/Vacuole", "Golgi apparatus",
   "Peroxisome"]

/-- `np.zeros((n, k))`: the n-by-k all-zero matrix, as a list of rows. -/
def zerosMatrix (n k : Nat) : List (List ℚ) :=
  List.replicate n (List.replicate k 0)

/-- `labels_matrix[:, idx] = col`: overwrite column `idx` of the matrix with
the given column vector (one entry per row). -/
def setColumn (m : List (List ℚ)) (idx : Nat) (col : List ℚ) : List (List ℚ) :=
  List.zipWith (fun row v => row.set idx v) m col

/-- The loop `for idx, label in enumerate(labels): labels_matrix[:, idx] =
labels_batch[label]` of `preprocess_data`, started at column `idx`. -/
def fillLabelColumns (m : List (List ℚ)) (ls : List String)
    (col : String → List ℚ) (idx : Nat) : List (List ℚ) :=
  match ls with
  | [] => m
  | l :: rest => fillLabelColumns (setColumn m idx (col l)) rest col (idx + 1)

/-- `labels_batch[label]`: the batch's column of values for one label. -/
def labelColumn (batch : List LocRecord) (l : String) : List ℚ :=
  batch.map (fun r => r.labelValue l)

/-- The label matrix built by `preprocess_data`: start from
`np.zeros((len(text), len(labels)))` and fill one column per label, in label
order. -/
def labels_matrix (batch : List LocRecord) (ls : List String) : List (List ℚ) :=
  fillLabelColumns (zerosMatrix batch.length ls.length) ls (labelColumn batch) 0

/-- `preprocess_data(examples, max_length)`: tokenize the batch's sequences
to fixed length and attach the label matrix. -/
def preprocess_data (maxLength : Nat) (ls : List String) (batch : List LocRecord) :
    List (List Nat) × List (List Nat) × List (List ℚ) :=
  (batch.map (fun r => encodeTokens maxLength r.sequence),
   batch.map (fun r => attentionMask maxLength r.sequence),
   labels_matrix batch ls)

/-! ## Length filter and train/validation/test split -/

/-- A sequence record of the DeepLoc dataframe, as far as the filter and
split are concerned. -/
structure SeqRecord where
  seq : String
deriving DecidableEq, Repr

/-- `df["Sequence"].apply(lambda x: len(x)).between(100, 512)`: the
configured length window, inclusive on both ends. -/
def inWindow (r : SeqRecord) : Bool :=
  decide (100 ≤ r.seq.length) && decide (r.seq.length ≤ 512)

/-- `df = df[df["Sequence"].apply(lambda x: len(x)).between(100, 512)]`. -/
def filterWindow (df : List SeqRecord) : List SeqRecord :=
  df.filter inWindow

/-- `train = df.sample(frac=0.8)`: the sampled rows of the filtered frame,
identified by their row index; the random choice is abstracted by the
selector `pick`. -/
def trainPart (df : List SeqRecord) (pick : Nat → Bool) : List (Nat × SeqRecord) :=
  (filterWindow df).enum.filter (fun x => pick x.1)

/-- `df = df.drop(train.index)`: the rows of the filtered frame not sampled
into the training partition. -/
def restPart (df : List SeqRecord) (pick : Nat → Bool) : List (Nat × SeqRecord) :=
  (filterWindow df).enum.filter (fun x => !pick x.1)

/-- `val = df.sample(frac=0.5)`: half of the remainder, chosen by the
selector `pick2`. -/
def valPart (df : List SeqRecord) (pick pick2 : Nat → Bool) : List (Nat × SeqRecord) :=
  (restPart df pick).filter (fun x => pick2 x.1)

/-- `test = df.drop(val.index)`: the rest of the remainder. -/
def testPart (df : List SeqRecord) (pick pick2 : Nat → Bool) : List (Nat × SeqRecord) :=
  (restPart df pick).filter (fun x => !pick2 x.1)

/-! ## JSON model for the inference handlers -/

/-- JSON values, as returned by the `json` module used in `inference.py`. -/
inductive JsonVal where
  | null
  | bool (b : Bool)
  | num (n : Int)
  | str (s : String)
  | arr (elems : List JsonVal)
  | obj (members : List (String × JsonVal))

/-- JSON insignificant whitespace. -/
def isWsChar (c : Char) : Bool :=
  c == ' ' || c.toNat == 9 || c.toNat == 10 || c.toNat == 13

/-- Drop leading JSON whitespace. -/
def skipWs : List Char → List Char
  | [] => []
  | c :: cs => if isWsChar c then skipWs cs else c :: cs

/-- Split a leading run of decimal digits off a character list. -/
def takeDigits : List Char → List Char × List Char
  | [] => ([], [])
  | c :: cs =>
    if c.isDigit then
      let p := takeDigits cs
      (c :: p.1, p.2)
    else ([], c :: cs)

/-- Decimal value of a digit string. -/
def digitsToNat (ds : List Char) : Nat :=
  ds.foldl (fun acc c => acc * 10 + (c.toNat - 48)) 0

/-- Parse the body of a JSON string literal (after the opening quote),
handling the basic escapes; returns the decoded characters and the input
after the closing quote. -/
def parseStringBody : List Char → Option (List Char × List Char)
  | [] => none
  | c :: cs =>
    if c.toNat == 34 then some ([], cs)
    else if c.toNat == 92 then
      match cs with
      | [] => none
      | e :: cs2 =>
        let esc : Option Char :=
          if e.toNat == 34 then some (Char.ofNat 34)
          else if e.toNat == 92 then some (Char.ofNat 92)
          else if e == '/' then some '/'
          else if e == 'n' then some (Char.ofNat 10)
          else if e == 't' then some (Char.ofNat 9)
          else if e == 'r' then some (Char.ofNat 13)
          else none
        match esc with
        | some ch =>
          match parseStringBody cs2 with
          | some p => some (ch :: p.1, p.2)
          | none => none
        | none => none
    else
      match parseStringBody cs with
      | some p => some (c :: p.1, p.2)
      | none => none

/-- Parsing mode: a single value, array elements, or object members. -/
inductive PMode where
  | value
  | elements
  | members

/-- Parsing result: a single value, a list of elements, or a list of
members. -/
inductive PRes where
  | val (j : JsonVal)
  | elems (l : List JsonVal)
  | mems (l : List (String × JsonVal))

/-- Fuel-indexed recursive-descent JSON parser (values, arrays, objects,
strings with basic escapes, integer numbers, `true`, `false`, `null`). -/
def parseJ : Nat → PMode → List Char → Option (PRes × List Char)
  | 0, _, _ => none
  | Nat.succ f, PMode.value, cs =>
    match skipWs cs with
    | [] => none
    | c :: rest =>
      if c.toNat == 34 then
        match parseStringBody rest with
        | some p => some (PRes.val (JsonVal.str (String.mk p.1)), p.2)
        | none => none
      else if c.toNat == 123 then
        match skipWs rest with
        | [] => none
        | d :: r2 =>
          if d.toNat == 125 then some (PRes.val (JsonVal.obj []), r2)
          else
            match parseJ f PMode.members (d :: r2) with
            | some (PRes.mems ms, r3) =>
              match skipWs r3 with
              | [] => none
              | e :: r4 =>
                if e.toNat == 125 then some (PRes.val (JsonVal.obj ms), r4)
                else none
            | _ => none
      else if c.toNat == 91 then
        match skipWs rest with
        | [] => none
        | d :: r2 =>
          if d.toNat == 93 then some (PRes.val (JsonVal.arr []), r2)
          else
            match parseJ f PMode.elements (d :: r2) with
            | some (PRes.elems es, r3) =>
              match skipWs r3 with
              | [] => none
              | e :: r4 =>
                if e.toNat == 93 then some (PRes.val (JsonVal.arr es), r4)
                else none
            | _ => none
      else if c == 't' then
        if rest.take 3 == ['r', 'u', 'e'] then
          some (PRes.val (JsonVal.bool true), rest.drop 3)
        else none
      else if c == 'f' then
        if rest.take 4 == ['a', 'l', 's', 'e'] then
          some (PRes.val (JsonVal.bool false), rest.drop 4)
        else none
      else if c == 'n' then
        if rest.take 3 == ['u', 'l', 'l'] then
          some (PRes.val JsonVal.null, rest.drop 3)
        else none
      else if c == '-' then
        match takeDigits rest with
        | ([], _) => none
        | (ds, r2) => some (PRes.val (JsonVal.num (-(digitsToNat ds : Int))), r2)
      else if c.isDigit then
        let p := takeDigits (c :: rest)
        some (PRes.val (JsonVal.num (digitsToNat p.1)), p.2)
      else none
  | Nat.succ f, PMode.elements, cs =>
    match parseJ f PMode.value cs with
    | some (PRes.val j, r1) =>
      match skipWs r1 with
      | [] => some (PRes.elems [j], [])
      | c :: r2 =>
        if c.toNat == 44 then
          match parseJ f PMode.elements r2 with
          | some (PRes.elems es, r3) => some (PRes.elems (j :: es), r3)
          | _ => none
        else some (PRes.elems [j], c :: r2)
    | _ => none
  | Nat.succ f, PMode.members, cs =>
    match skipWs cs with
    | [] => none
    | c :: r1 =>
      if c.toNat == 34 then
        match parseStringBody r1 with
        | some kp =>
          match skipWs kp.2 with
          | [] => none
          | d :: r3 =>
            if d.toNat == 58 then
              match parseJ f PMode.value r3 with
              | some (PRes.val v, r4) =>
                match skipWs r4 with
                | [] => some (PRes.mems [(String.mk kp.1, v)], [])
                | e :: r5 =>
                  if e.toNat == 44 then
                    match parseJ f PMode.members r5 with
                    | some (PRes.mems ms, r6) =>
                      some (PRes.mems ((String.mk kp.1, v) :: ms), r6)
                    | _ => none
                  else some (PRes.mems [(String.mk kp.1, v)], e :: r5)
              | _ => none
            else none
        | none => none
      else none

/-- Models the external `json.loads` used by `input_fn`: parse the request
body as a single JSON value; `none` models the `JSONDecodeError` raised on
malformed input. -/
def jsonLoads (s : String) : Option JsonVal :=
  match parseJ (2 * s.length + 4) PMode.value s.data with
  | some (PRes.val j, rest) => if skipWs rest == [] then some j else none
  | _ => none

/-- Escape one character for JSON string output. -/
def escapeJsonChar (c : Char) : List Char :=
  if c.toNat == 34 then [Char.ofNat 92, Char.ofNat 34]
  else if c.toNat == 92 then [Char.ofNat 92, Char.ofNat 92]
  else if c.toNat == 10 then [Char.ofNat 92, 'n']
  else if c.toNat == 9 then [Char.ofNat 92, 't']
  else if c.toNat == 13 then [Char.ofNat 92, 'r']
  else [c]

/-- Serialize one string as a JSON string literal. -/
def jsonDumpString (s : String) : String :=
  String.mk ([Char.ofNat 34] ++
    s.data.foldr (fun c acc => escapeJsonChar c ++ acc) [] ++ [Char.ofNat 34])

/-- Models the external `json.dumps` applied by `output_fn` to the list of
PDB strings. -/
def jsonDumpStringList (l : List String) : String :=
  "[" ++ String.intercalate ", " (l.map jsonDumpString) ++ "]"

/-! ## Inference request and response handlers (`inference.py`) -/

/-- The value returned by `input_fn`: the raw body for `text/csv`, the
JSON-parsed body for `application/json`. -/
inductive RequestInput where
  | raw (s : String)
  | parsed (j : JsonVal)

/-- The value returned by `output_fn`: the list of PDB strings for
`text/csv`, their JSON serialization for `application/json`. -/
inductive InferenceOutput where
  | csvOut (pdbs : List String)
  | jsonOut (s : String)

/-- Raised-exception observer: `true` exactly when the computation ended in
an error. -/
def raisesError {ε α : Type} : Except ε α → Bool
  | Except.error _ => true
  | Except.ok _ => false

/-- The content types accepted by both handlers. -/
def supportedContentType (ct : String) : Bool :=
  ct == "text/csv" || ct == "application/json"

/-- `input_fn(request_body, request_content_type)` of `inference.py`:
return the raw body for `text/csv`, `json.loads(request_body)` for
`application/json`, and raise `ValueError` otherwise. -/
def input_fn (requestBody : String) (requestContentType : String) :
    Except String RequestInput :=
  if requestContentType = "text/csv" then
    Except.ok (RequestInput.raw requestBody)
  else if requestContentType = "application/json" then
    match jsonLoads requestBody with
    | some j => Except.ok (RequestInput.parsed j)
    | none => Except.error "JSONDecodeError"
  else
    Except.error ("Unsupported content type: " ++ requestContentType)

/-- `output_fn(outputs, response_content_type)` of `inference.py`, after the
(external, tensor-level) conversion of the model outputs into the list
`pdbs` of PDB strings: return `pdbs` for `text/csv`, `json.dumps(pdbs)` for
`application/json`, and raise `ValueError` otherwise. -/
def output_fn (pdbs : List String) (responseContentType : String) :
    Except String InferenceOutput :=
  if responseContentType = "text/csv" then
    Except.ok (InferenceOutput.csvOut pdbs)
  else if responseContentType = "application/json" then
    Except.ok (InferenceOutput.jsonOut (jsonDumpStringList pdbs))
  else
    Except.error ("Unsupported content type: " ++ responseContentType)

/-! ## Endpoint cleanup -/

/-- The teardown cell `try: predictor.delete_endpoint() / except: pass`,
as a function of the outcome of the underlying delete call: a bare `except`
catches every exception and `pass` discards it. -/
def cleanup_endpoint (deleteOutcome : Except String Unit) : Except String Unit :=
  match deleteOutcome with
  | Except.ok _ => Except.ok ()
  | Except.error _ => Except.ok ()

/-! ## Structural comparator (`tmscore`) -/

/-- A structure file's atomic coordinates, with rational coordinates in
place of the tool's floating-point ones. -/
structure Structure3D where
  atoms : List (ℚ × ℚ × ℚ)
deriving DecidableEq

/-- Squared Euclidean distance between two aligned atom positions. -/
def distSq (a b : ℚ × ℚ × ℚ) : ℚ :=
  (a.1 - b.1) ^ 2 + (a.2.1 - b.2.1) ^ 2 + (a.2.2 - b.2.2) ^ 2

/-- One residue's contribution to the TM-score, `1 / (1 + (d_i / d_0)^2)`,
expressed with the squared distance and squared scale `d0sq`. -/
def tmTerm (d0sq d2 : ℚ) : ℚ :=
  1 / (1 + d2 / d0sq)

/-- Modelled from the spec: `prothelpers.structure.tmscore` and the external
TM-score alignment tool it invokes are part of the repository/workflow but
absent from the sources.  Per the spec's comparator contract, the score of a
superimposed pair is the mean over aligned residues of the TM-score terms:
`(1 / L_target) * sum 1 / (1 + (d_i / d_0)^2)`. -/
def tmscoreValue (d0sq : ℚ) (pred ref : Structure3D) : ℚ :=
  (List.zipWith (fun a b => tmTerm d0sq (distSq a b)) pred.atoms ref.atoms).sum
    / (ref.atoms.length : ℚ)

/-- Modelled from the spec: `tmscore(reference, prediction, superimposed)`
captures a single score and persists a superimposed structure artifact; the
artifact is the aligned predicted structure. -/
def tmscore (d0sq : ℚ) (pred ref : Structure3D) : ℚ × Structure3D :=
  (tmscoreValue d0sq pred ref, pred)

/-! ## Job-configuration builder -/

/-- A hyperparameter value: the notebooks use naturals, strings and
booleans. -/
inductive HPValue where
  | natV (n : Nat)
  | strV (s : String)
  | boolV (b : Bool)
deriving DecidableEq, Repr

/-- A job-submission configuration: hyperparameters, instance type/count,
container image reference, and (metric name, extraction pattern) pairs. -/
structure JobConfig where
  hyperparameters : List (String × HPValue)
  instanceType : String
  instanceCount : Nat
  imageUri : String
  metricDefinitions : List (String × String)
deriving DecidableEq, Repr

/-- Modelled from the spec: the training entry-point scripts
(`lora-train.py`, `trn1-oas-mlm-train-dp.py`, `cuda-oas-mlm-train-ddp.py`)
that receive and validate the hyperparameters are part of the repository
(referenced through `entry_point`/`source_dir`) but absent from the sources.
Per the spec's builder contract, hyperparameter keys are checked against the
flat set of recognized options and "unsupported keys are rejected". -/
def build_job_config (recognized : List String) (hps : List (String × HPValue))
    (instanceType imageUri : String) (instanceCount : Nat)
    (metrics : List (String × String)) : Except String JobConfig :=
  match hps.find? (fun kv => !(recognized.contains kv.1)) with
  | some kv => Except.error ("Unsupported hyperparameter: " ++ kv.1)
  | none => Except.ok ⟨hps, instanceType, instanceCount, imageUri, metrics⟩

/-- The `hyperparameters` dictionary of the LoRA fine-tuning job. -/
def loraHyperparameters : List (String × HPValue) :=
  [("epochs", HPValue.natV 2),
   ("max_length", HPValue.natV 512),
   ("model_id", HPValue.strV "facebook/esm2_t36_3B_UR50D"),
   ("num_labels", HPValue.natV 10),
   ("problem_type", HPValue.strV "multi_label_classification"),
   ("per_device_train_batch_size", HPValue.natV 2),
   ("per_device_eval_batch_size", HPValue.natV 32),
   ("gradient_accumulation_steps", HPValue.natV 16)]

/-- Modelled from the spec: the recognized hyperparameter option set of the
LoRA training script (the script is not in the sources; the recognized
options are the ones the notebook submits). -/
def recognizedLoraOptions : List String :=
  ["epochs", "max_length", "model_id", "num_labels", "problem_type",
   "per_device_train_batch_size", "per_device_eval_batch_size",
   "gradient_accumulation_steps"]

/-- The metric-extraction patterns of the domain-adaptation notebook. -/
def oasMetricDefinitions : List (String × String) :=
  [("epoch", "Epoch: ([0-9.]*)"),
   ("step", "Step: ([0-9.]*)"),
   ("train_loss", "Training Loss: ([0-9.e-]*)"),
   ("train_perplexity", "Training Perplexity: ([0-9.e-]*)"),
   ("train_samples_per_second", "Training Samples/sec: ([0-9.e-]*)"),
   ("train_tokens_per_second", "Training Tokens/sec: ([0-9.e-]*)"),
   ("eval_loss", "Eval Loss: ([0-9.e-]*)"),
   ("eval_perplexity", "Eval Perplexity: ([0-9.e-]*)"),
   ("eval_samples_per_second", "Eval Samples/sec: ([0-9.e-]*)"),
   ("eval_tokens_per_second", "Eval Tokens/sec: ([0-9.e-]*)")]

/-! ## Concrete witness data -/

/-- A record inside the length window (120 residues). -/
def wSeqIn : SeqRecord := ⟨String.mk (List.replicate 120 'M')⟩

/-- A second record inside the length window (200 residues). -/
def wSeqIn2 : SeqRecord := ⟨String.mk (List.replicate 200 'A')⟩

/-- A record outside the length window (50 residues). -/
def wSeqOut : SeqRecord := ⟨String.mk (List.replicate 50 'G')⟩

/-- A concrete dataframe with records inside and outside the window. -/
def wDf : List SeqRecord := [wSeqIn, wSeqOut, wSeqIn2]

/-- A concrete training-sample selector. -/
def wPick : Nat → Bool := fun n => n == 0

/-- A concrete validation-sample selector. -/
def wPick2 : Nat → Bool := fun n => n == 1

/-- A concrete DeepLoc record located in the nucleus. -/
def wRecNucleus : LocRecord :=
  ⟨['M'], fun l => if l == "Nucleus" then 1 else 0⟩

/-- A concrete DeepLoc record located in the cytoplasm. -/
def wRecCytoplasm : LocRecord :=
  ⟨['A'], fun l => if l == "Cytoplasm" then 1 else 0⟩

/-- A concrete two-record batch. -/
def wBatch : List LocRecord := [wRecNucleus, wRecCytoplasm]

/-- A concrete two-atom structure. -/
def wStruct : Structure3D := ⟨[(0, 0, 0), (1, 2, 3)]⟩

/-! ## Helper lemmas -/

theorem takeWhile_replicate_append (p : Nat → Bool) (a : Nat) (hp : p a = true)
    (k : Nat) (l : List Nat) :
    List.takeWhile p (List.replicate k a ++ l) =
      List.replicate k a ++ List.takeWhile p l := by
  induction k with
  | zero => simp
  | succ n ih => simp [List.replicate_succ, List.takeWhile_cons, hp, ih]

theorem takeWhile_nil_of_all (p : Nat → Bool) (l : List Nat)
    (h : ∀ x ∈ l, p x = false) : List.takeWhile p l = [] := by
  cases l with
  | nil => rfl
  | cons x xs => simp [List.takeWhile_cons, h x (by simp)]

theorem tokenOfChar_ne_pad (c : Char) : (tokenOfChar c == padTokenId) = false := by
  simp only [tokenOfChar, padTokenId, unkTokenId]
  split <;> simp

theorem filterMap_replicate_none {α β : Type} (f : α → Option β) (a : α)
    (hf : f a = none) (k : Nat) : (List.replicate k a).filterMap f = [] := by
  induction k with
  | zero => rfl
  | succ n ih => simp [List.replicate_succ, List.filterMap_cons, hf, ih]

theorem filterMap_id_of_mem {α : Type} (f : α → Option α) (l : List α)
    (h : ∀ x ∈ l, f x = some x) : l.filterMap f = l := by
  induction l with
  | nil => rfl
  | cons x xs ih =>
    simp [List.filterMap_cons, h x (by simp)]
    exact ih (fun y hy => h y (List.mem_cons_of_mem _ hy))

theorem decode_tokenOfChar (c : Char) (hc : c ∈ aminoAcids) :
    (if tokenOfChar c < 2 then none else aminoAcids.get? (tokenOfChar c - 2)) =
      some c := by
  have hidx : aminoAcids.indexOf c < aminoAcids.length :=
    List.indexOf_lt_length.mpr hc
  simp only [tokenOfChar, hidx, if_true]
  rw [if_neg (by omega)]
  simp only [Nat.add_sub_cancel]
  exact List.indexOf_get? hc

/-! ## Claim theorems -/

/-- C1: for every input sequence shorter than the configured maximum length
`L`, the tokenization/encoding step produces a token array of exactly length
`L`, and the number of trailing pad tokens equals `L` minus the original
sequence length. -/
theorem encode_pad_length (L : Nat) (s : List Char) (h : s.length < L) :
    (encodeTokens L s).length = L ∧
      trailingPadCount (encodeTokens L s) = L - s.length := by
  have htake : s.take L = s := List.take_of_length_le (le_of_lt h)
  constructor
  · simp only [encodeTokens, htake, List.length_append, List.length_map,
      List.length_replicate]
    omega
  · simp only [trailingPadCount, encodeTokens, htake]
    rw [List.reverse_append, List.reverse_replicate,
      takeWhile_replicate_append _ _ (by simp)]
    rw [takeWhile_nil_of_all]
    · simp
    · intro x hx
      rw [List.mem_reverse] at hx
      obtain ⟨c, _, rfl⟩ := List.mem_map.mp hx
      exact tokenOfChar_ne_pad c

/-- C1 witness: a 100-residue sequence encoded at the localization
notebook's maximum length 512 and at the domain-adaptation notebook's
sequence length 142. -/
theorem encode_pad_length_witness :
    ((encodeTokens 512 (List.replicate 100 'M')).length = 512 ∧
      trailingPadCount (encodeTokens 512 (List.replicate 100 'M')) =
        512 - (List.replicate 100 'M').length) ∧
    ((encodeTokens 142 (List.replicate 100 'M')).length = 142 ∧
      trailingPadCount (encodeTokens 142 (List.replicate 100 'M')) =
        142 - (List.replicate 100 'M').length) :=
  ⟨encode_pad_length 512 (List.replicate 100 'M') (by simp),
   encode_pad_length 142 (List.replicate 100 'M') (by simp)⟩

/-- C3: decoding an encoded token array while ignoring pad tokens
reproduces the original amino-acid sequence up to truncation at length
`L`. -/
theorem decode_encode_roundtrip (L : Nat) (s : List Char)
    (h : ∀ c ∈ s, c ∈ aminoAcids) :
    decodeTokens (encodeTokens L s) = s.take L := by
  simp only [decodeTokens, encodeTokens]
  rw [List.filterMap_append]
  rw [filterMap_replicate_none _ _ (by simp [padTokenId]), List.append_nil,
    List.filterMap_map]
  apply filterMap_id_of_mem
  intro c hc
  have hmem : c ∈ aminoAcids := h c (List.take_subset L s hc)
  simpa [Function.comp] using decode_tokenOfChar c hmem

/-- C3 witness: the round-trip on a concrete three-residue sequence at both
configured maximum lengths. -/
theorem decode_encode_roundtrip_witness :
    decodeTokens (encodeTokens 512 ['M', 'K', 'V']) = ['M', 'K', 'V'].take 512 ∧
    decodeTokens (encodeTokens 142 ['M', 'K', 'V']) = ['M', 'K', 'V'].take 142 :=
  ⟨decode_encode_roundtrip 512 ['M', 'K', 'V'] (by decide),
   decode_encode_roundtrip 142 ['M', 'K', 'V'] (by decide)⟩

theorem snd_mem_of_mem_enumFrom {α : Type} (l : List α) :
    ∀ (n : Nat) (x : Nat × α), x ∈ l.enumFrom n → x.2 ∈ l := by
  induction l with
  | nil => intro n x hx; simp [List.enumFrom] at hx
  | cons a as ih =>
    intro n x hx
    rw [List.enumFrom] at hx
    rcases List.mem_cons.mp hx with h | h
    · subst h; exact List.mem_cons_self a as
    · exact List.mem_cons_of_mem a (ih (n + 1) x h)

theorem snd_mem_of_mem_enum {α : Type} (l : List α) (x : Nat × α)
    (hx : x ∈ l.enum) : x.2 ∈ l :=
  snd_mem_of_mem_enumFrom l 0 x hx

/-- C4: every record present in the train, validation, or test partition
comes from the loaded dataframe and has sequence length at least 100 and at
most 512; hence every record outside the window is excluded from all
partitions. -/
theorem partitions_within_window (df : List SeqRecord) (pick pick2 : Nat → Bool)
    (x : Nat × SeqRecord)
    (hx : x ∈ trainPart df pick ∨ x ∈ valPart df pick pick2 ∨
      x ∈ testPart df pick pick2) :
    x.2 ∈ df ∧ 100 ≤ x.2.seq.length ∧ x.2.seq.length ≤ 512 := by
  have hE : x ∈ (filterWindow df).enum := by
    rcases hx with h | h | h
    · exact (List.mem_filter.mp h).1
    · exact (List.mem_filter.mp (List.mem_filter.mp h).1).1
    · exact (List.mem_filter.mp (List.mem_filter.mp h).1).1
  have h2 : x.2 ∈ filterWindow df := snd_mem_of_mem_enum _ x hE
  have h3 := List.mem_filter.mp h2
  refine ⟨h3.1, ?_, ?_⟩
  · have := h3.2
    simp only [inWindow, Bool.and_eq_true, decide_eq_true_eq] at this
    exact this.1
  · have := h3.2
    simp only [inWindow, Bool.and_eq_true, decide_eq_true_eq] at this
    exact this.2

/-- C4 witness: the first in-window record lands in the training partition
of the concrete dataframe and satisfies the window bounds. -/
theorem partitions_within_window_witness :
    wSeqIn ∈ wDf ∧ 100 ≤ wSeqIn.seq.length ∧ wSeqIn.seq.length ≤ 512 :=
  partitions_within_window wDf wPick wPick2 (0, wSeqIn) (Or.inl (by decide))

/-- C9: the train, validation, and test partitions are pairwise disjoint
and their union is exactly the length-filtered dataset (as indexed rows). -/
theorem split_is_partition (df : List SeqRecord) (pick pick2 : Nat → Bool)
    (x : Nat × SeqRecord) :
    ((x ∈ trainPart df pick →
        x ∉ valPart df pick pick2 ∧ x ∉ testPart df pick pick2) ∧
      (x ∈ valPart df pick pick2 → x ∉ testPart df pick pick2)) ∧
    (x ∈ (filterWindow df).enum ↔
      x ∈ trainPart df pick ∨ x ∈ valPart df pick pick2 ∨
        x ∈ testPart df pick pick2) := by
  simp only [trainPart, valPart, testPart, restPart, List.mem_filter]
  cases hp : pick x.1 <;> cases hq : pick2 x.1 <;> simp [hp, hq]

/-- C9 witness: on the concrete dataframe, the sampled training row is in
neither the validation nor the test partition. -/
theorem split_is_partition_witness :
    (0, wSeqIn) ∉ valPart wDf wPick wPick2 ∧
      (0, wSeqIn) ∉ testPart wDf wPick wPick2 :=
  (split_is_partition wDf wPick wPick2 (0, wSeqIn)).1.1 (by decide)

theorem getD_replicate {α : Type} (a : α) (n j : Nat) (d : α) (h : j < n) :
    (List.replicate n a).getD j d = a := by
  induction n generalizing j with
  | zero => omega
  | succ n ih =>
    cases j with
    | zero => simp [List.replicate_succ, List.getD_cons_zero]
    | succ j' =>
      simp only [List.replicate_succ, List.getD_cons_succ]
      exact ih j' (by omega)

theorem getD_map {α β : Type} (f : α → β) (l : List α) (j : Nat) (d : α)
    (db : β) (h : j < l.length) : (l.map f).getD j db = f (l.getD j d) := by
  induction l generalizing j with
  | nil => simp at h
  | cons a as ih =>
    cases j with
    | zero => simp [List.getD_cons_zero]
    | succ j' =>
      simp only [List.map_cons, List.getD_cons_succ]
      exact ih j' (by simpa using h)

theorem getD_set_self (l : List ℚ) (i : Nat) (v : ℚ) (h : i < l.length) :
    (l.set i v).getD i 0 = v := by
  induction l generalizing i with
  | nil => simp at h
  | cons a as ih =>
    cases i with
    | zero => simp [List.set]
    | succ i' =>
      simp only [List.set, List.getD_cons_succ]
      exact ih i' (by simpa using h)

theorem getD_set_ne (l : List ℚ) (i j : Nat) (v : ℚ) (h : i ≠ j) :
    (l.set i v).getD j 0 = l.getD j 0 := by
  induction l generalizing i j with
  | nil => simp [List.set]
  | cons a as ih =>
    cases i with
    | zero =>
      cases j with
      | zero => exact absurd rfl h
      | succ j' => simp [List.set, List.getD_cons_succ]
    | succ i' =>
      cases j with
      | zero => simp [List.set]
      | succ j' =>
        simp only [List.set, List.getD_cons_succ]
        exact ih i' j' (fun he => h (by rw [he]))

theorem length_setColumn (m : List (List ℚ)) (idx : Nat) (col : List ℚ) :
    (setColumn m idx col).length = min m.length col.length := by
  simp [setColumn]

theorem getD_setColumn (m : List (List ℚ)) (col : List ℚ) (idx j : Nat)
    (hj : j < m.length) (hc : m.length ≤ col.length) :
    (setColumn m idx col).getD j [] = (m.getD j []).set idx (col.getD j 0) := by
  induction m generalizing col j with
  | nil => simp at hj
  | cons r rs ih =>
    cases col with
    | nil => simp at hc
    | cons v vs =>
      cases j with
      | zero => simp [setColumn]
      | succ j' =>
        simp only [setColumn, List.zipWith_cons_cons, List.getD_cons_succ]
        exact ih vs j' (by simpa using hj) (by simpa using hc)

theorem fillLabelColumns_length (ls : List String) (col : String → List ℚ) :
    ∀ (m : List (List ℚ)) (idx : Nat), (∀ l, (col l).length = m.length) →
    (fillLabelColumns m ls col idx).length = m.length := by
  induction ls with
  | nil => intro m idx _; rfl
  | cons l rest ih =>
    intro m idx hcol
    have hlen : (setColumn m idx (col l)).length = m.length := by
      rw [length_setColumn, hcol l]; exact min_self _
    rw [show fillLabelColumns m (l :: rest) col idx =
        fillLabelColumns (setColumn m idx (col l)) rest col (idx + 1) from rfl]
    rw [ih _ _ (fun l2 => by rw [hlen, hcol l2]), hlen]

theorem fillLabelColumns_row_length (ls : List String) (col : String → List ℚ) :
    ∀ (m : List (List ℚ)) (idx j : Nat), j < m.length →
    (∀ l, (col l).length = m.length) →
    ((fillLabelColumns m ls col idx).getD j []).length = (m.getD j []).length := by
  induction ls with
  | nil => intro m idx j _ _; rfl
  | cons l rest ih =>
    intro m idx j hj hcol
    have hlen : (setColumn m idx (col l)).length = m.length := by
      rw [length_setColumn, hcol l]; exact min_self _
    rw [show fillLabelColumns m (l :: rest) col idx =
        fillLabelColumns (setColumn m idx (col l)) rest col (idx + 1) from rfl]
    rw [ih _ _ j (by rwa [hlen]) (fun l2 => by rw [hlen, hcol l2])]
    rw [getD_setColumn m (col l) idx j hj (le_of_eq (hcol l).symm)]
    exact List.length_set _ _ _

theorem fillLabelColumns_getD_lt (ls : List String) (col : String → List ℚ) :
    ∀ (m : List (List ℚ)) (idx c j : Nat), c < idx → j < m.length →
    (∀ l, (col l).length = m.length) →
    ((fillLabelColumns m ls col idx).getD j []).getD c 0 =
      (m.getD j []).getD c 0 := by
  induction ls with
  | nil => intro m idx c j _ _ _; rfl
  | cons l rest ih =>
    intro m idx c j hc hj hcol
    have hlen : (setColumn m idx (col l)).length = m.length := by
      rw [length_setColumn, hcol l]; exact min_self _
    rw [show fillLabelColumns m (l :: rest) col idx =
        fillLabelColumns (setColumn m idx (col l)) rest col (idx + 1) from rfl]
    rw [ih _ _ c j (by omega) (by rwa [hlen]) (fun l2 => by rw [hlen, hcol l2])]
    rw [getD_setColumn m (col l) idx j hj (le_of_eq (hcol l).symm)]
    exact getD_set_ne _ _ _ _ (by omega)

theorem fillLabelColumns_getD (ls : List String) (col : String → List ℚ) :
    ∀ (m : List (List ℚ)) (idx j i : Nat), i < ls.length → j < m.length →
    (∀ l, (col l).length = m.length) →
    (∀ j2, j2 < m.length → idx + ls.length ≤ (m.getD j2 []).length) →
    ((fillLabelColumns m ls col idx).getD j []).getD (idx + i) 0 =
      (col (ls.getD i "")).getD j 0 := by
  induction ls with
  | nil => intro m idx j i hi; simp at hi
  | cons l rest ih =>
    intro m idx j i hi hj hcol hw
    have hlen : (setColumn m idx (col l)).length = m.length := by
      rw [length_setColumn, hcol l]; exact min_self _
    have hrowpres : ∀ j2, j2 < m.length →
        ((setColumn m idx (col l)).getD j2 []).length = (m.getD j2 []).length := by
      intro j2 hj2
      rw [getD_setColumn m (col l) idx j2 hj2 (le_of_eq (hcol l).symm)]
      exact List.length_set _ _ _
    rw [show fillLabelColumns m (l :: rest) col idx =
        fillLabelColumns (setColumn m idx (col l)) rest col (idx + 1) from rfl]
    cases i with
    | zero =>
      simp only [Nat.add_zero]
      rw [fillLabelColumns_getD_lt rest col (setColumn m idx (col l)) (idx + 1)
        idx j (by omega) (by rwa [hlen]) (fun l2 => by rw [hlen, hcol l2])]
      rw [getD_setColumn m (col l) idx j hj (le_of_eq (hcol l).symm)]
      rw [getD_set_self _ _ _
        (by have := hw j hj; simp only [List.length_cons] at this; omega)]
      simp [List.getD_cons_zero]
    | succ i' =>
      have h2 := ih (setColumn m idx (col l)) (idx + 1) j i'
        (by simpa using Nat.lt_of_succ_lt_succ (by simpa using hi))
        (by rwa [hlen]) (fun l2 => by rw [hlen, hcol l2])
        (by
          intro j2 hj2
          rw [hrowpres j2 (by rwa [hlen] at hj2)]
          have := hw j2 (by rwa [hlen] at hj2)
          simp only [List.length_cons] at this
          omega)
      rw [show idx + (i' + 1) = (idx + 1) + i' from by omega]
      rw [h2]
      simp [List.getD_cons_succ]

/-- C2: for every batch of records and every ordered label set, the label
matrix of `preprocess_data` has one row per record, each row has length
exactly the number of labels, and the entry at column `i` of a record's row
is that record's value for the `i`-th label in canonical order. -/
theorem labels_matrix_spec (batch : List LocRecord) (ls : List String)
    (j i : Nat) (hj : j < batch.length) (hi : i < ls.length) :
    (labels_matrix batch ls).length = batch.length ∧
    ((labels_matrix batch ls).getD j []).length = ls.length ∧
    ((labels_matrix batch ls).getD j []).getD i 0 =
      (batch.getD j ⟨[], fun _ => 0⟩).labelValue (ls.getD i "") := by
  have hzlen : (zerosMatrix batch.length ls.length).length = batch.length := by
    simp [zerosMatrix]
  have hcol : ∀ l, (labelColumn batch l).length =
      (zerosMatrix batch.length ls.length).length := by
    intro l; simp [labelColumn, zerosMatrix]
  have hjz : j < (zerosMatrix batch.length ls.length).length := by rwa [hzlen]
  have hzrow : ∀ j2, j2 < (zerosMatrix batch.length ls.length).length →
      (zerosMatrix batch.length ls.length).getD j2 [] =
        List.replicate ls.length 0 := by
    intro j2 hj2
    exact getD_replicate _ _ _ _ (by rwa [hzlen] at hj2)
  refine ⟨?_, ?_, ?_⟩
  · unfold labels_matrix
    rw [fillLabelColumns_length ls (labelColumn batch) _ 0 hcol, hzlen]
  · unfold labels_matrix
    rw [fillLabelColumns_row_length ls (labelColumn batch) _ 0 j hjz hcol]
    rw [hzrow j hjz, List.length_replicate]
  · unfold labels_matrix
    have h0 := fillLabelColumns_getD ls (labelColumn batch)
      (zerosMatrix batch.length ls.length) 0 j i hi hjz hcol
      (by intro j2 hj2; rw [hzrow j2 hj2, List.length_replicate]; omega)
    rw [Nat.zero_add] at h0
    rw [h0]
    unfold labelColumn
    exact getD_map (fun r => r.labelValue (ls.getD i "")) batch j
      ⟨[], fun _ => 0⟩ 0 hj

/-- C2 witness: on the concrete two-record batch with the ten canonical
localization labels, row 1 column 0 is the second record's value for the
first label. -/
theorem labels_matrix_spec_witness :
    (labels_matrix wBatch deepLocLabels).length = wBatch.length ∧
    ((labels_matrix wBatch deepLocLabels).getD 1 []).length =
      deepLocLabels.length ∧
    ((labels_matrix wBatch deepLocLabels).getD 1 []).getD 0 0 =
      (wBatch.getD 1 ⟨[], fun _ => 0⟩).labelValue (deepLocLabels.getD 0 "") :=
  labels_matrix_spec wBatch deepLocLabels 1 0 (by decide) (by decide)

/-- C5: for every configuration key not in the recognized hyperparameter
option set, the job-configuration builder rejects the configuration rather
than silently ignoring the unsupported key. -/
theorem build_config_rejects_unknown (recognized : List String)
    (hps : List (String × HPValue)) (it im : String) (ic : Nat)
    (ms : List (String × String)) (k : String) (v : HPValue)
    (hk : (k, v) ∈ hps) (hur : recognized.contains k = false) :
    raisesError (build_job_config recognized hps it im ic ms) = true := by
  have hne : hps.find? (fun kv => !(recognized.contains kv.1)) ≠ none := by
    intro hfind
    have hthis := List.find?_eq_none.mp hfind (k, v) hk
    have hmem : k ∉ recognized := by simpa using hur
    simp at hthis
    exact hmem hthis
  unfold build_job_config
  cases hfind : hps.find? (fun kv => !(recognized.contains kv.1)) with
  | none => exact absurd hfind hne
  | some kv => simp [raisesError]

/-- C5 witness: the LoRA notebook's hyperparameter dictionary extended with
an unrecognized key is rejected by the builder. -/
theorem build_config_rejects_unknown_witness :
    raisesError (build_job_config recognizedLoraOptions
      (loraHyperparameters ++ [("bogus_option", HPValue.natV 1)])
      "ml.g5.2xlarge" "huggingface-pytorch-training:2.0" 1
      oasMetricDefinitions) = true :=
  build_config_rejects_unknown recognizedLoraOptions
    (loraHyperparameters ++ [("bogus_option", HPValue.natV 1)])
    "ml.g5.2xlarge" "huggingface-pytorch-training:2.0" 1 oasMetricDefinitions
    "bogus_option" (HPValue.natV 1) (by decide) (by decide)

/-- C7: the endpoint cleanup never propagates an exception: whatever the
outcome of the underlying delete call, the try/except-pass teardown
completes silently. -/
theorem cleanup_never_raises (r : Except String Unit) :
    cleanup_endpoint r = Except.ok () := by
  cases r <;> rfl

/-- C6 counterexample: the claim that `input_fn` raises an error if and
only if the content type is unsupported is false — with content type
`application/json` (supported) and a malformed body, `input_fn` raises
(`json.loads` fails). -/
theorem handlers_error_iff_refuted :
    ¬ (∀ (body ct : String) (pdbs : List String),
        raisesError (input_fn body ct) = !supportedContentType ct ∧
        raisesError (output_fn pdbs ct) = !supportedContentType ct) := by
  intro h
  exact absurd (h "\x7b" "application/json" []).1 (by decide)

/-- C6 (amended): `input_fn` raises an error exactly when the request
content type is neither `text/csv` nor `application/json`, or it is
`application/json` and the body is not valid JSON; `output_fn` raises an
error exactly when the response content type is neither `text/csv` nor
`application/json`. -/
theorem handlers_error_characterization (body ct : String) (pdbs : List String) :
    raisesError (input_fn body ct) =
      (!(decide (ct = "text/csv")) &&
        (!(decide (ct = "application/json")) || (jsonLoads body).isNone)) ∧
    raisesError (output_fn pdbs ct) =
      !(decide (ct = "text/csv") || decide (ct = "application/json")) := by
  constructor
  · by_cases h1 : ct = "text/csv"
    · simp [input_fn, h1, raisesError]
    · by_cases h2 : ct = "application/json"
      · subst h2
        cases hj : jsonLoads body with
        | none => simp [input_fn, h1, hj, raisesError]
        | some j => simp [input_fn, h1, hj, raisesError]
      · simp [input_fn, h1, h2, raisesError]
  · by_cases h1 : ct = "text/csv"
    · simp [output_fn, h1, raisesError]
    · by_cases h2 : ct = "application/json"
      · simp [output_fn, h1, h2, raisesError]
      · simp [output_fn, h1, h2, raisesError]

/-- C10: for content type `text/csv`, `input_fn` returns the request body
unchanged; for `application/json` it returns the JSON-parsed value of the
body. -/
theorem input_fn_supported_types (body : String) :
    input_fn body "text/csv" = Except.ok (RequestInput.raw body) ∧
    ∀ j, jsonLoads body = some j →
      input_fn body "application/json" = Except.ok (RequestInput.parsed j) := by
  constructor
  · simp [input_fn]
  · intro j hj
    simp [input_fn, hj]

/-- C10 witness: a raw CSV body passes through unchanged, and a JSON string
body is parsed. -/
theorem input_fn_supported_types_witness :
    input_fn "MKV" "text/csv" = Except.ok (RequestInput.raw "MKV") ∧
    input_fn "\"MKV\"" "application/json" =
      Except.ok (RequestInput.parsed (JsonVal.str "MKV")) :=
  ⟨(input_fn_supported_types "MKV").1,
   (input_fn_supported_types "\"MKV\"").2 (JsonVal.str "MKV") rfl⟩

theorem sum_le_length_of_le_one (l : List ℚ) (h : ∀ x ∈ l, x ≤ 1) :
    l.sum ≤ (l.length : ℚ) := by
  induction l with
  | nil => simp
  | cons a as ih =>
    simp only [List.sum_cons, List.length_cons]
    have h1 : a ≤ 1 := h a (by simp)
    have h2 := ih (fun x hx => h x (List.mem_cons_of_mem _ hx))
    push_cast
    linarith

theorem tmTerm_nonneg (d0sq d2 : ℚ) (hd0 : 0 < d0sq) (hd2 : 0 ≤ d2) :
    0 ≤ tmTerm d0sq d2 := by
  unfold tmTerm
  have hq : 0 ≤ d2 / d0sq := div_nonneg hd2 (le_of_lt hd0)
  have hpos : (0 : ℚ) < 1 + d2 / d0sq := by linarith
  exact le_of_lt (div_pos one_pos hpos)

theorem tmTerm_le_one (d0sq d2 : ℚ) (hd0 : 0 < d0sq) (hd2 : 0 ≤ d2) :
    tmTerm d0sq d2 ≤ 1 := by
  unfold tmTerm
  have hq : 0 ≤ d2 / d0sq := div_nonneg hd2 (le_of_lt hd0)
  have hpos : (0 : ℚ) < 1 + d2 / d0sq := by linarith
  rw [div_le_one hpos]
  linarith

theorem distSq_nonneg (a b : ℚ × ℚ × ℚ) : 0 ≤ distSq a b := by
  unfold distSq
  positivity

theorem distSq_self (a : ℚ × ℚ × ℚ) : distSq a a = 0 := by
  unfold distSq
  ring

theorem tmTerm_zero (d0sq : ℚ) : tmTerm d0sq 0 = 1 := by
  unfold tmTerm
  norm_num

theorem zipWith_tmTerm_self (d0sq : ℚ) (l : List (ℚ × ℚ × ℚ)) :
    List.zipWith (fun a b => tmTerm d0sq (distSq a b)) l l =
      List.replicate l.length 1 := by
  induction l with
  | nil => rfl
  | cons a as ih =>
    simp [List.zipWith_cons_cons, List.replicate_succ, ih, distSq_self,
      tmTerm_zero]

theorem zipWith_tmTerm_mem (d0sq : ℚ) :
    ∀ (l1 l2 : List (ℚ × ℚ × ℚ)) (x : ℚ),
      x ∈ List.zipWith (fun a b => tmTerm d0sq (distSq a b)) l1 l2 →
      ∃ a b, x = tmTerm d0sq (distSq a b) := by
  intro l1
  induction l1 with
  | nil => intro l2 x hx; simp at hx
  | cons a as ih =>
    intro l2 x hx
    cases l2 with
    | nil => simp at hx
    | cons b bs =>
      rw [List.zipWith_cons_cons] at hx
      rcases List.mem_cons.mp hx with h | h
      · exact ⟨a, b, h⟩
      · exact ih bs x h

/-- C8: the structural comparator produces a similarity score in [0, 1]
together with a superimposed structure artifact, and on two identical
structures the score is exactly 1 (the tool's defined maximum). -/
theorem tmscore_range_and_identity (d0sq : ℚ) (pred ref : Structure3D)
    (hd0 : 0 < d0sq) (hlen : pred.atoms.length = ref.atoms.length)
    (hne : 0 < ref.atoms.length) :
    0 ≤ (tmscore d0sq pred ref).1 ∧ (tmscore d0sq pred ref).1 ≤ 1 ∧
      (pred = ref → (tmscore d0sq pred ref).1 = 1) := by
  have hn : (0 : ℚ) < (ref.atoms.length : ℚ) := by exact_mod_cast hne
  have hterms : ∀ x ∈ List.zipWith (fun a b => tmTerm d0sq (distSq a b))
      pred.atoms ref.atoms, 0 ≤ x ∧ x ≤ 1 := by
    intro x hx
    obtain ⟨a, b, rfl⟩ := zipWith_tmTerm_mem d0sq pred.atoms ref.atoms x hx
    exact ⟨tmTerm_nonneg _ _ hd0 (distSq_nonneg a b),
      tmTerm_le_one _ _ hd0 (distSq_nonneg a b)⟩
  have hsum0 : 0 ≤ (List.zipWith (fun a b => tmTerm d0sq (distSq a b))
      pred.atoms ref.atoms).sum :=
    List.sum_nonneg (fun x hx => (hterms x hx).1)
  have hsum1 := sum_le_length_of_le_one _ (fun x hx => (hterms x hx).2)
  have hziplen : (List.zipWith (fun a b => tmTerm d0sq (distSq a b))
      pred.atoms ref.atoms).length = ref.atoms.length := by
    rw [List.length_zipWith, hlen]
    exact min_self _
  refine ⟨?_, ?_, ?_⟩
  · show 0 ≤ tmscoreValue d0sq pred ref
    unfold tmscoreValue
    exact div_nonneg hsum0 (le_of_lt hn)
  · show tmscoreValue d0sq pred ref ≤ 1
    unfold tmscoreValue
    rw [div_le_one hn]
    calc (List.zipWith (fun a b => tmTerm d0sq (distSq a b))
        pred.atoms ref.atoms).sum
        ≤ ((List.zipWith (fun a b => tmTerm d0sq (distSq a b))
            pred.atoms ref.atoms).length : ℚ) := hsum1
      _ = (ref.atoms.length : ℚ) := by exact_mod_cast congrArg Nat.cast hziplen
  · intro hpr
    subst hpr
    show tmscoreValue d0sq pred pred = 1
    unfold tmscoreValue
    rw [zipWith_tmTerm_self, List.sum_replicate, nsmul_eq_mul, mul_one]
    exact div_self (ne_of_gt hn)

/-- C8 witness: on a concrete two-atom structure compared with itself, the
score is exactly 1. -/
theorem tmscore_range_and_identity_witness :
    (tmscore 25 wStruct wStruct).1 = 1 :=
  (tmscore_range_and_identity 25 wStruct wStruct (by norm_num) rfl
    (by decide)).2.2 rfl
